import Mathlib

/-!
Shallow embedding of the classroom quiz-management workflow found in
`django_school/classroom/views/teachers.py`, together with theorems that
settle the specification's claims about it.

The database is modelled as explicit lists of rows; every view function
becomes a pure function from a database state (plus the acting user's id
and the request parameters) to either an error or a result/new state.
Django's `get_object_or_404` raising `Http404` is modelled as
`Except.error Err.notFound`; an invalid form submission (the view
re-renders the form without persisting anything) is modelled as
`Except.error Err.validation`.
-/

/-- A subject category (`classroom.models.Subject`).
Modelled from the spec: `models.py` is absent from the sources; §3 describes
a named category referenced by quizzes. -/
structure Subject where
  id : Nat
  name : String
deriving DecidableEq, Repr

/-- A quiz row (`classroom.models.Quiz`).
Modelled from the spec: `models.py` is absent; §3 describes name, owning
teacher and optional subject. -/
structure Quiz where
  id : Nat
  name : String
  owner : Nat
  subject : Option Nat
deriving DecidableEq, Repr

/-- A question row (`classroom.models.Question`): belongs to one quiz.
Modelled from the spec (§3): `models.py` is absent. -/
structure Question where
  id : Nat
  quiz : Nat
  text : String
deriving DecidableEq, Repr

/-- An answer row (`classroom.models.Answer`): belongs to one question.
Modelled from the spec (§3): `models.py` is absent. -/
structure Answer where
  id : Nat
  question : Nat
  text : String
  is_correct : Bool
deriving DecidableEq, Repr

/-- A student identity (`classroom.models.Student`).
Modelled from the spec (§3): `models.py` is absent. -/
structure Student where
  id : Nat
deriving DecidableEq, Repr

/-- A timestamp, precise enough for `TruncDate` to be meaningful. -/
structure Datetime where
  year : Nat
  month : Nat
  day : Nat
  hour : Nat
  minute : Nat
deriving DecidableEq, Repr

/-- A completed attempt (`classroom.models.TakenQuiz`).
Modelled from the spec (§3): student, quiz, score, completion timestamp. -/
structure TakenQuiz where
  id : Nat
  student : Nat
  quiz : Nat
  score : Nat
  date : Datetime
deriving DecidableEq, Repr

/-- A selected-answer record (`classroom.models.StudentAnswer`, reached in the
views as `answer.student_answer`).
Modelled from the spec (§3): links a student to a specific Answer. -/
structure StudentAnswer where
  id : Nat
  student : Nat
  answer : Nat
deriving DecidableEq, Repr

/-- The persistent store: one list of rows per table, plus a fresh-id counter
standing in for the database's autoincrementing primary keys. -/
structure DB where
  quizzes : List Quiz
  questions : List Question
  answers : List Answer
  students : List Student
  takenQuizzes : List TakenQuiz
  studentAnswers : List StudentAnswer
  nextId : Nat
deriving DecidableEq, Repr

/-- Error taxonomy of the views (spec §7): `notFound` is `Http404`
(object absent or not owned — intentionally conflated), `validation` is a
rejected form submission. -/
inductive Err where
  | notFound
  | validation
deriving DecidableEq, Repr

/-- `request.user.quizzes.all()`: the quizzes owned by the acting user. -/
def ownedQuizzes (db : DB) (user : Nat) : List Quiz :=
  db.quizzes.filter (fun q => q.owner == user)

/-- Looking up quiz `pk` inside the owner-scoped queryset, as
`QuizUpdateView`/`QuizDeleteView` do via `get_queryset` +
`get_object`, and as `get_object_or_404(Quiz, pk=pk, owner=request.user)`
does in the function-based views. -/
def findQuiz (db : DB) (user pk : Nat) : Option Quiz :=
  (ownedQuizzes db user).find? (fun q => q.id == pk)

/-- `QuizUpdateView` (teachers.py lines 85-100): load the quiz from the
owner-scoped queryset (404 when absent or not owned), then save the new
name and subject. -/
def quizUpdate (db : DB) (user pk : Nat) (newName : String)
    (newSubject : Option Nat) : Except Err DB :=
  match findQuiz db user pk with
  | none => .error .notFound
  | some _ =>
    .ok { db with
      quizzes := db.quizzes.map (fun q =>
        if q.id == pk then { q with name := newName, subject := newSubject }
        else q) }

/-- `QuizDeleteView` (teachers.py lines 103-116): load the quiz from the
owner-scoped queryset (404 when absent or not owned), then delete it,
cascading to its questions and their answers (spec §3 lifecycle). -/
def quizDelete (db : DB) (user pk : Nat) : Except Err DB :=
  match findQuiz db user pk with
  | none => .error .notFound
  | some _ =>
    let deadQuestions := db.questions.filter (fun qn => qn.quiz == pk)
    .ok { db with
      quizzes := db.quizzes.filter (fun q => q.id != pk),
      questions := db.questions.filter (fun qn => qn.quiz != pk),
      answers := db.answers.filter
        (fun a => !(deadQuestions.any (fun qn => qn.id == a.question))) }

/-- A whole request round trip for the update view: on any error the
response is an error page and the store is untouched. -/
def quizUpdateRun (db : DB) (user pk : Nat) (newName : String)
    (newSubject : Option Nat) : DB :=
  match quizUpdate db user pk newName newSubject with
  | .ok db2 => db2
  | .error _ => db

/-- A whole request round trip for the delete view: on any error the
response is an error page and the store is untouched. -/
def quizDeleteRun (db : DB) (user pk : Nat) : DB :=
  match quizDelete db user pk with
  | .ok db2 => db2
  | .error _ => db

theorem findQuiz_eq_none_of_not_owner (db : DB) (t pk : Nat)
    (h : ∀ q ∈ db.quizzes, q.id = pk → q.owner ≠ t) :
    findQuiz db t pk = none := by
  apply List.find?_eq_none.mpr
  intro q hq
  rcases List.mem_filter.mp hq with ⟨hmem, hown⟩
  simp only [beq_iff_eq] at hown ⊢
  intro hid
  exact h q hmem hid hown

/-- **C1.** For every quiz `Q` and authenticated teacher `T ≠ owner(Q)`,
the quiz update and quiz delete operations invoked by `T` on `Q` fail with
`NotFound` (never a distinct forbidden signal), and the store — `Q`, its
questions and its answers included — is left unchanged. -/
theorem quiz_mutation_by_nonowner_fails_notfound (db : DB) (t : Nat)
    (qz : Quiz) (newName : String) (newSubject : Option Nat)
    (hnodup : (db.quizzes.map Quiz.id).Nodup)
    (hmem : qz ∈ db.quizzes) (hown : qz.owner ≠ t) :
    quizUpdate db t qz.id newName newSubject = .error .notFound ∧
    quizDelete db t qz.id = .error .notFound ∧
    quizUpdateRun db t qz.id newName newSubject = db ∧
    quizDeleteRun db t qz.id = db := by
  have hnone : findQuiz db t qz.id = none := by
    apply findQuiz_eq_none_of_not_owner
    intro q hq hid
    have : q = qz := List.inj_on_of_nodup_map hnodup hq hmem hid
    rw [this]
    exact hown
  refine ⟨?_, ?_, ?_, ?_⟩ <;>
    simp [quizUpdate, quizDelete, quizUpdateRun, quizDeleteRun, hnone]

/-- Tiny concrete store used by the witnesses. -/
def exDb1 : DB :=
  { quizzes := [{ id := 1, name := "Algebra", owner := 10, subject := some 5 }],
    questions := [{ id := 2, quiz := 1, text := "2+2=?" }],
    answers := [{ id := 3, question := 2, text := "4", is_correct := true },
                { id := 4, question := 2, text := "5", is_correct := false }],
    students := [{ id := 7 }],
    takenQuizzes := [],
    studentAnswers := [],
    nextId := 100 }

theorem quiz_mutation_by_nonowner_fails_notfound_witness :
    quizUpdate exDb1 11 1 "Hacked" none = .error .notFound ∧
    quizDelete exDb1 11 1 = .error .notFound ∧
    quizUpdateRun exDb1 11 1 "Hacked" none = exDb1 ∧
    quizDeleteRun exDb1 11 1 = exDb1 := by
  have h := quiz_mutation_by_nonowner_fails_notfound exDb1 11
    { id := 1, name := "Algebra", owner := 10, subject := some 5 }
    "Hacked" none (by decide) (by decide) (by decide)
  exact h

/-- One row of the submitted answer formset: the `fields=('text','is_correct')`
of the `AnswerFormSet` built in `question_change` (teachers.py lines 167-176). -/
structure SubmittedAnswer where
  text : String
  is_correct : Bool
deriving DecidableEq, Repr

/-- Validity of the submitted answer formset.  The size bounds come from the
`inlineformset_factory` call in the source (`min_num=2, validate_min=True,
max_num=10, validate_max=True`); the per-answer non-empty-text requirement is
modelled from the spec (§4.3: "non-empty text per answer"), since `forms.py`
(`BaseAnswerInlineFormSet`) is absent from the sources. -/
def answerFormSetValid (subs : List SubmittedAnswer) : Bool :=
  2 ≤ subs.length && subs.length ≤ 10 && subs.all (fun s => s.text != "")

/-- Validity of the question form.
Modelled from the spec: `forms.py` (`QuestionForm`) is absent from the
sources; a question is a text field, required to be non-empty. -/
def questionFormValid (t : String) : Bool :=
  t != ""

/-- `get_object_or_404(Question, pk=question_pk, quiz=quiz)`. -/
def findQuestion (db : DB) (quizPk qpk : Nat) : Option Question :=
  db.questions.find? (fun qn => qn.id == qpk && qn.quiz == quizPk)

/-- The answers currently persisted for question `qpk`
(`question.answers.all()`). -/
def answersOf (db : DB) (qpk : Nat) : List Answer :=
  db.answers.filter (fun a => a.question == qpk)

/-- The stored text of question `qpk`. -/
def questionText (db : DB) (qpk : Nat) : Option String :=
  (db.questions.find? (fun qn => qn.id == qpk)).map Question.text

/-- `question_change` (teachers.py lines 161-196): load the quiz owner-scoped
and the question within it (404 otherwise); validate the question form and
the answer formset; when both are valid, save the new text and replace the
question's full answer set inside one `transaction.atomic()` block; when
either is invalid, persist nothing.  The formset save replacing the full
answer set is modelled from the spec (§4.3: "atomically replaces the
question's text and its full set of answers"), `forms.py` being absent. -/
def questionChange (db : DB) (user quizPk qpk : Nat) (newText : String)
    (subs : List SubmittedAnswer) : Except Err DB :=
  match findQuiz db user quizPk with
  | none => .error .notFound
  | some _ =>
    match findQuestion db quizPk qpk with
    | none => .error .notFound
    | some _ =>
      if questionFormValid newText && answerFormSetValid subs then
        let newAnswers := subs.enum.map (fun p =>
          ({ id := db.nextId + p.1, question := qpk,
             text := p.2.text, is_correct := p.2.is_correct } : Answer))
        .ok { db with
          questions := db.questions.map (fun qn =>
            if qn.id == qpk then { qn with text := newText } else qn),
          answers := db.answers.filter (fun a => a.question != qpk) ++ newAnswers,
          nextId := db.nextId + subs.length }
      else .error .validation

/-- A whole request round trip for `question_change`: on any error the form
is re-rendered and the store is untouched. -/
def questionChangeRun (db : DB) (user quizPk qpk : Nat) (newText : String)
    (subs : List SubmittedAnswer) : DB :=
  match questionChange db user quizPk qpk newText subs with
  | .ok db2 => db2
  | .error _ => db

/-- `question_add` (teachers.py lines 142-158): load the quiz owner-scoped
(404 otherwise), validate the question form, and save a new question under
the quiz.  Returns the new state together with the new question's pk. -/
def questionAdd (db : DB) (user quizPk : Nat) (text : String) :
    Except Err (DB × Nat) :=
  match findQuiz db user quizPk with
  | none => .error .notFound
  | some _ =>
    if questionFormValid text then
      .ok ({ db with
              questions := db.questions ++
                [{ id := db.nextId, quiz := quizPk, text := text }],
              nextId := db.nextId + 1 },
           db.nextId)
    else .error .validation

theorem answersOf_after_replace (old newAnswers : List Answer) (qpk : Nat)
    (h : ∀ a ∈ newAnswers, a.question = qpk) :
    (old.filter (fun a => a.question != qpk) ++ newAnswers).filter
      (fun a => a.question == qpk) = newAnswers := by
  rw [List.filter_append, List.filter_filter]
  have h1 : (old.filter fun a =>
      (a.question == qpk) && (a.question != qpk)) = [] := by
    apply List.filter_eq_nil_iff.mpr
    intro a _
    simp [bne]
  have h2 : (newAnswers.filter fun a => a.question == qpk) = newAnswers := by
    apply List.filter_eq_self.mpr
    intro a ha
    simpa using h a ha
  rw [h1, h2, List.nil_append]

theorem map_payload_of_enum_answers (subs : List SubmittedAnswer)
    (base qpk : Nat) :
    ((subs.enum.map (fun p =>
        ({ id := base + p.1, question := qpk, text := p.2.text,
           is_correct := p.2.is_correct } : Answer))).map
      (fun a => (a.text, a.is_correct))) =
    subs.map (fun s => (s.text, s.is_correct)) := by
  rw [List.map_map]
  have : ((fun a => (a.text, a.is_correct)) ∘ (fun (p : Nat × SubmittedAnswer) =>
      ({ id := base + p.1, question := qpk, text := p.2.text,
         is_correct := p.2.is_correct } : Answer))) =
      ((fun s => (s.text, s.is_correct)) ∘ (Prod.snd :
        Nat × SubmittedAnswer → SubmittedAnswer)) := by
    funext p
    rfl
  rw [this, ← List.map_map, List.enum_map_snd]

theorem questionText_after_update (l : List Question) (qpk : Nat)
    (newText : String) (h : ∃ qn ∈ l, qn.id = qpk) :
    ((l.map (fun qn => if qn.id == qpk then { qn with text := newText }
        else qn)).find? (fun qn => qn.id == qpk)).map Question.text =
      some newText := by
  induction l with
  | nil => rcases h with ⟨_, hmem, _⟩; cases hmem
  | cons q rest ih =>
    by_cases hid : q.id = qpk
    · have hmap : ((q :: rest).map fun qn =>
          if qn.id == qpk then { qn with text := newText } else qn) =
          { q with text := newText } :: (rest.map fun qn =>
            if qn.id == qpk then { qn with text := newText } else qn) := by
        simp [hid]
      rw [hmap, List.find?_cons_of_pos]
      · rfl
      · simpa using hid
    · have h' : ∃ qn ∈ rest, qn.id = qpk := by
        rcases h with ⟨qn, hmem, hq⟩
        rcases List.mem_cons.mp hmem with rfl | hmem'
        · exact absurd hq hid
        · exact ⟨qn, hmem', hq⟩
      have hmap : ((q :: rest).map fun qn =>
          if qn.id == qpk then { qn with text := newText } else qn) =
          q :: (rest.map fun qn =>
            if qn.id == qpk then { qn with text := newText } else qn) := by
        simp [hid]
      rw [hmap, List.find?_cons_of_neg]
      · exact ih h'
      · simpa using hid

/-- **C2.** `change_question` replaces the question's text and its full
answer set atomically: every run either fails with an error and touches
nothing, or succeeds with both the new text and exactly the submitted
answer set persisted — no partial-success state is reachable. -/
theorem question_change_atomic (db : DB) (user quizPk qpk : Nat)
    (newText : String) (subs : List SubmittedAnswer) :
    (∃ e, questionChange db user quizPk qpk newText subs = .error e ∧
          questionChangeRun db user quizPk qpk newText subs = db) ∨
    (∃ db2, questionChange db user quizPk qpk newText subs = .ok db2 ∧
            questionChangeRun db user quizPk qpk newText subs = db2 ∧
            questionText db2 qpk = some newText ∧
            (answersOf db2 qpk).map (fun a => (a.text, a.is_correct)) =
              subs.map (fun s => (s.text, s.is_correct))) := by
  cases hq : findQuiz db user quizPk with
  | none =>
    left
    exact ⟨.notFound, by simp [questionChange, hq],
      by simp [questionChangeRun, questionChange, hq]⟩
  | some z =>
    cases hqn : findQuestion db quizPk qpk with
    | none =>
      left
      exact ⟨.notFound, by simp [questionChange, hq, hqn],
        by simp [questionChangeRun, questionChange, hq, hqn]⟩
    | some qn =>
      by_cases hv : (questionFormValid newText && answerFormSetValid subs) = true
      · right
        have hok : questionChange db user quizPk qpk newText subs =
            .ok { db with
              questions := db.questions.map (fun q =>
                if q.id == qpk then { q with text := newText } else q),
              answers := db.answers.filter (fun a => a.question != qpk) ++
                subs.enum.map (fun p =>
                  ({ id := db.nextId + p.1, question := qpk,
                     text := p.2.text, is_correct := p.2.is_correct } : Answer)),
              nextId := db.nextId + subs.length } := by
          simp [questionChange, hq, hqn, hv]
        refine ⟨_, hok, by simp [questionChangeRun, hok], ?_, ?_⟩
        · apply questionText_after_update
          refine ⟨qn, ?_, ?_⟩
          · exact List.mem_of_find?_eq_some hqn
          · have := List.find?_some hqn
            simp only [Bool.and_eq_true, beq_iff_eq] at this
            exact this.1
        · have hans : answersOf { db with
              questions := db.questions.map (fun q =>
                if q.id == qpk then { q with text := newText } else q),
              answers := db.answers.filter (fun a => a.question != qpk) ++
                subs.enum.map (fun p =>
                  ({ id := db.nextId + p.1, question := qpk,
                     text := p.2.text, is_correct := p.2.is_correct } : Answer)),
              nextId := db.nextId + subs.length } qpk =
              subs.enum.map (fun p =>
                ({ id := db.nextId + p.1, question := qpk,
                   text := p.2.text, is_correct := p.2.is_correct } : Answer)) := by
            unfold answersOf
            exact answersOf_after_replace _ _ _ (by
              intro a ha
              rcases List.mem_map.mp ha with ⟨p, _, rfl⟩
              rfl)
          rw [hans]
          exact map_payload_of_enum_answers subs db.nextId qpk
      · left
        refine ⟨.validation, ?_, ?_⟩
        · simp [questionChange, hq, hqn, hv]
        · simp [questionChangeRun, questionChange, hq, hqn, hv]

theorem answerFormSetValid_false_of_bad_count (subs : List SubmittedAnswer)
    (hcount : subs.length < 2 ∨ 10 < subs.length) :
    answerFormSetValid subs = false := by
  unfold answerFormSetValid
  rcases hcount with h | h
  · have : ¬ (2 ≤ subs.length) := Nat.not_le.mpr h
    simp [this]
  · have : ¬ (subs.length ≤ 10) := Nat.not_le.mpr h
    simp [this]

/-- **C3.** A `change_question` submission whose answer set has size outside
`[2,10]` fails with `ValidationError` before commit, and the question's
previously stored answer set remains intact. -/
theorem change_question_bad_count_rejected (db : DB) (user quizPk qpk : Nat)
    (newText : String) (subs : List SubmittedAnswer) (z : Quiz) (qn : Question)
    (hq : findQuiz db user quizPk = some z)
    (hqn : findQuestion db quizPk qpk = some qn)
    (hcount : subs.length < 2 ∨ 10 < subs.length) :
    questionChange db user quizPk qpk newText subs = .error .validation ∧
    questionChangeRun db user quizPk qpk newText subs = db ∧
    answersOf (questionChangeRun db user quizPk qpk newText subs) qpk =
      answersOf db qpk := by
  have hv : answerFormSetValid subs = false :=
    answerFormSetValid_false_of_bad_count subs hcount
  have herr : questionChange db user quizPk qpk newText subs =
      .error .validation := by
    simp [questionChange, hq, hqn, hv]
  refine ⟨herr, ?_, ?_⟩ <;> simp [questionChangeRun, herr]

/-- A one-element submitted answer set (size below the minimum of 2). -/
def badSubs : List SubmittedAnswer :=
  [{ text := "only", is_correct := true }]

theorem change_question_bad_count_rejected_witness :
    questionChange exDb1 10 1 2 "2+2=?" badSubs = .error .validation ∧
    questionChangeRun exDb1 10 1 2 "2+2=?" badSubs = exDb1 ∧
    answersOf (questionChangeRun exDb1 10 1 2 "2+2=?" badSubs) 2 =
      answersOf exDb1 2 := by
  have h := change_question_bad_count_rejected exDb1 10 1 2 "2+2=?"
    badSubs
    { id := 1, name := "Algebra", owner := 10, subject := some 5 }
    { id := 2, quiz := 1, text := "2+2=?" }
    (by decide) (by decide) (Or.inl (by decide))
  exact h

instance {ε α : Type} [DecidableEq ε] [DecidableEq α] :
    DecidableEq (Except ε α) := fun a b =>
  match a, b with
  | .ok x, .ok y =>
    if h : x = y then .isTrue (by rw [h])
    else .isFalse (fun hc => h (Except.ok.inj hc))
  | .error x, .error y =>
    if h : x = y then .isTrue (by rw [h])
    else .isFalse (fun hc => h (Except.error.inj hc))
  | .ok _, .error _ => .isFalse (fun hc => Except.noConfusion hc)
  | .error _, .ok _ => .isFalse (fun hc => Except.noConfusion hc)

/-- The store produced by a successful `question_add` on `db`: the new
question row is appended and the autoincrement counter advances. -/
def dbAfterAdd (db : DB) (quizPk : Nat) (t : String) : DB :=
  { db with
    questions := db.questions ++ [{ id := db.nextId, quiz := quizPk, text := t }],
    nextId := db.nextId + 1 }

theorem questionAdd_ok (db : DB) (user quizPk : Nat) (t : String) (z : Quiz)
    (hq : findQuiz db user quizPk = some z) (hvt : questionFormValid t = true) :
    questionAdd db user quizPk t = .ok (dbAfterAdd db quizPk t, db.nextId) := by
  simp [questionAdd, hq, hvt, dbAfterAdd]

theorem roundtrip_after_add (db : DB) (user quizPk : Nat)
    (t newText : String) (subs : List SubmittedAnswer) (z : Quiz)
    (hq : findQuiz db user quizPk = some z)
    (hfreshQ : ∀ qn ∈ db.questions, qn.id < db.nextId)
    (hfreshA : ∀ a ∈ db.answers, a.question < db.nextId)
    (hlen : subs.length = 3)
    (htexts : subs.all (fun s => s.text != "") = true)
    (hnt : newText ≠ "") :
    answersOf (dbAfterAdd db quizPk t) db.nextId = [] ∧
    questionChange (dbAfterAdd db quizPk t) user quizPk db.nextId
        newText subs =
      .ok (questionChangeRun (dbAfterAdd db quizPk t) user quizPk db.nextId
        newText subs) ∧
    (answersOf (questionChangeRun (dbAfterAdd db quizPk t) user quizPk
      db.nextId newText subs) db.nextId).length = 3 ∧
    (answersOf (questionChangeRun (dbAfterAdd db quizPk t) user quizPk
        db.nextId newText subs) db.nextId).map
        (fun a => (a.text, a.is_correct)) =
      subs.map (fun s => (s.text, s.is_correct)) ∧
    ((answersOf (questionChangeRun (dbAfterAdd db quizPk t) user quizPk
        db.nextId newText subs) db.nextId).all
      (fun a => !((answersOf (dbAfterAdd db quizPk t) db.nextId).contains a)))
      = true := by
  have hq1 : findQuiz (dbAfterAdd db quizPk t) user quizPk = some z := hq
  have hnoneQ : db.questions.find?
      (fun qn => qn.id == db.nextId && qn.quiz == quizPk) = none := by
    apply List.find?_eq_none.mpr
    intro qn hqn
    simp only [Bool.and_eq_true, beq_iff_eq]
    rintro ⟨h1, -⟩
    exact Nat.ne_of_lt (hfreshQ qn hqn) h1
  have hqn1 : findQuestion (dbAfterAdd db quizPk t) quizPk db.nextId =
      some { id := db.nextId, quiz := quizPk, text := t } := by
    show ((db.questions ++
        [({ id := db.nextId, quiz := quizPk, text := t } : Question)]).find?
      (fun (qn : Question) => qn.id == db.nextId && qn.quiz == quizPk)) = _
    rw [List.find?_append, hnoneQ]
    simp [List.find?]
  have hans1 : answersOf (dbAfterAdd db quizPk t) db.nextId = [] := by
    apply List.filter_eq_nil_iff.mpr
    intro a ha
    have halt : a ∈ db.answers := ha
    simp only [beq_iff_eq]
    exact Nat.ne_of_lt (hfreshA a halt)
  have hvalid : (questionFormValid newText && answerFormSetValid subs)
      = true := by
    simp [questionFormValid, answerFormSetValid, hlen, htexts, hnt]
  have hok : questionChange (dbAfterAdd db quizPk t) user quizPk db.nextId
      newText subs =
      .ok { dbAfterAdd db quizPk t with
        questions := (dbAfterAdd db quizPk t).questions.map (fun q =>
          if q.id == db.nextId then { q with text := newText } else q),
        answers := (dbAfterAdd db quizPk t).answers.filter
            (fun a => a.question != db.nextId) ++
          subs.enum.map (fun p =>
            ({ id := (dbAfterAdd db quizPk t).nextId + p.1,
               question := db.nextId,
               text := p.2.text, is_correct := p.2.is_correct } : Answer)),
        nextId := (dbAfterAdd db quizPk t).nextId + subs.length } := by
    simp [questionChange, hq1, hqn1, hvalid]
  have hrun : questionChangeRun (dbAfterAdd db quizPk t) user quizPk
      db.nextId newText subs =
      { dbAfterAdd db quizPk t with
        questions := (dbAfterAdd db quizPk t).questions.map (fun q =>
          if q.id == db.nextId then { q with text := newText } else q),
        answers := (dbAfterAdd db quizPk t).answers.filter
            (fun a => a.question != db.nextId) ++
          subs.enum.map (fun p =>
            ({ id := (dbAfterAdd db quizPk t).nextId + p.1,
               question := db.nextId,
               text := p.2.text, is_correct := p.2.is_correct } : Answer)),
        nextId := (dbAfterAdd db quizPk t).nextId + subs.length } := by
    simp [questionChangeRun, hok]
  have hans2 : answersOf (questionChangeRun (dbAfterAdd db quizPk t) user
      quizPk db.nextId newText subs) db.nextId =
      subs.enum.map (fun p =>
        ({ id := (dbAfterAdd db quizPk t).nextId + p.1, question := db.nextId,
           text := p.2.text, is_correct := p.2.is_correct } : Answer)) := by
    rw [hrun]
    unfold answersOf
    exact answersOf_after_replace _ _ _ (by
      intro a ha
      rcases List.mem_map.mp ha with ⟨p, -, rfl⟩
      rfl)
  refine ⟨hans1, ?_, ?_, ?_, ?_⟩
  · rw [hok, hrun]
  · rw [hans2, List.length_map, List.enum_length, hlen]
  · rw [hans2]
    exact map_payload_of_enum_answers subs (dbAfterAdd db quizPk t).nextId
      db.nextId
  · rw [hans2, hans1]
    apply List.all_eq_true.mpr
    intro a _
    simp [List.contains]

/-- **C8.** Round-trip: a question created via `question_add`, followed by a
successful `question_change` submitting a fresh answer set of size 3, ends
with exactly 3 answers persisted for that question, none of them left over
from the prior (empty) set. -/
theorem add_then_change_roundtrip (db : DB) (user quizPk : Nat)
    (t newText : String) (subs : List SubmittedAnswer) (db1 : DB) (qpk : Nat)
    (hadd : questionAdd db user quizPk t = .ok (db1, qpk))
    (hfreshQ : ∀ qn ∈ db.questions, qn.id < db.nextId)
    (hfreshA : ∀ a ∈ db.answers, a.question < db.nextId)
    (hlen : subs.length = 3)
    (htexts : subs.all (fun s => s.text != "") = true)
    (hnt : newText ≠ "") :
    answersOf db1 qpk = [] ∧
    questionChange db1 user quizPk qpk newText subs =
      .ok (questionChangeRun db1 user quizPk qpk newText subs) ∧
    (answersOf (questionChangeRun db1 user quizPk qpk newText subs)
      qpk).length = 3 ∧
    (answersOf (questionChangeRun db1 user quizPk qpk newText subs) qpk).map
        (fun a => (a.text, a.is_correct)) =
      subs.map (fun s => (s.text, s.is_correct)) ∧
    ((answersOf (questionChangeRun db1 user quizPk qpk newText subs)
        qpk).all (fun a => !((answersOf db1 qpk).contains a))) = true := by
  cases hq : findQuiz db user quizPk with
  | none => simp [questionAdd, hq] at hadd
  | some z =>
    by_cases hvt : questionFormValid t = true
    · rw [questionAdd, hq] at hadd
      simp only [hvt, if_true, Except.ok.injEq, Prod.mk.injEq] at hadd
      obtain ⟨hdb1, hqpk⟩ := hadd
      have hdb1' : db1 = dbAfterAdd db quizPk t := hdb1.symm
      have hqpk' : qpk = db.nextId := hqpk.symm
      rw [hdb1', hqpk']
      exact roundtrip_after_add db user quizPk t newText subs z hq
        hfreshQ hfreshA hlen htexts hnt
    · rw [questionAdd, hq] at hadd
      simp [hvt] at hadd

/-- The store of `exDb1` right after `question_add` creates question 100
under quiz 1. -/
def exDb8a : DB := dbAfterAdd exDb1 1 "NewQ"

/-- A submitted answer set of size 3. -/
def subs3 : List SubmittedAnswer :=
  [{ text := "3", is_correct := false },
   { text := "4", is_correct := true },
   { text := "5", is_correct := false }]

theorem add_then_change_roundtrip_witness :
    answersOf exDb8a 100 = [] ∧
    questionChange exDb8a 10 1 100 "2+2=?" subs3 =
      .ok (questionChangeRun exDb8a 10 1 100 "2+2=?" subs3) ∧
    (answersOf (questionChangeRun exDb8a 10 1 100 "2+2=?" subs3)
      100).length = 3 ∧
    (answersOf (questionChangeRun exDb8a 10 1 100 "2+2=?" subs3) 100).map
        (fun a => (a.text, a.is_correct)) =
      subs3.map (fun s => (s.text, s.is_correct)) ∧
    ((answersOf (questionChangeRun exDb8a 10 1 100 "2+2=?" subs3)
        100).all (fun a => !((answersOf exDb8a 100).contains a))) = true := by
  have h := add_then_change_roundtrip exDb1 10 1 "NewQ" "2+2=?" subs3
    exDb8a 100 (by decide) (by decide) (by decide) (by decide) (by decide)
    (by decide)
  exact h

/-- One row of `QuizListView`'s queryset: a quiz annotated with
`questions_count=Count('questions', distinct=True)` and
`taken_count=Count('taken_quizzes', distinct=True)`. -/
structure QuizRow where
  quiz : Quiz
  questions_count : Nat
  taken_count : Nat
deriving DecidableEq, Repr

/-- The two `annotate` calls of `QuizListView.get_queryset`
(teachers.py lines 54-57). -/
def annotateQuiz (db : DB) (q : Quiz) : QuizRow :=
  { quiz := q,
    questions_count := (db.questions.filter (fun qn => qn.quiz == q.id)).length,
    taken_count := (db.takenQuizzes.filter (fun tq => tq.quiz == q.id)).length }

/-- Python's `str.isdigit()` on ASCII input: non-empty and all digits. -/
def isAllDigits (s : String) : Bool :=
  !s.isEmpty && s.toList.all Char.isDigit

/-- Is `pat` a contiguous run inside `l`? -/
def containsSub (pat : List Char) : List Char → Bool
  | [] => pat.isEmpty
  | c :: cs => pat.isPrefixOf (c :: cs) || containsSub pat cs

/-- Django's `name__icontains`: case-insensitive substring test. -/
def icontains (s pat : String) : Bool :=
  containsSub pat.toLower.toList s.toLower.toList

/-- The `q` request parameter (teachers.py lines 59-60): when present,
keep only quizzes whose name contains it case-insensitively. -/
def applyFindFilter (q : Option String) (rows : List QuizRow) : List QuizRow :=
  match q with
  | none => rows
  | some s => rows.filter (fun r => icontains r.quiz.name s)

/-- The `type` request parameter (teachers.py lines 61-63): when present and
made of digits, keep only quizzes of that subject pk; otherwise it is
silently ignored. -/
def applyTypeFilter (t : Option String) (rows : List QuizRow) : List QuizRow :=
  match t with
  | none => rows
  | some s =>
    if isAllDigits s then
      rows.filter (fun r => r.quiz.subject == some (s.toNat?.getD 0))
    else rows

/-- Stable insertion of a row into a list sorted by `lt`. -/
def insertSortedBy (lt : QuizRow → QuizRow → Bool) (r : QuizRow) :
    List QuizRow → List QuizRow
  | [] => [r]
  | x :: xs => if lt r x then r :: x :: xs else x :: insertSortedBy lt r xs

/-- Insertion sort of the queryset rows by `lt`. -/
def sortRowsBy (lt : QuizRow → QuizRow → Bool) (rows : List QuizRow) :
    List QuizRow :=
  rows.foldl (fun acc r => insertSortedBy lt r acc) []

/-- `order_by('name')`. -/
def byNameAsc (a b : QuizRow) : Bool :=
  decide (a.quiz.name < b.quiz.name)

/-- `order_by('-name')`. -/
def byNameDesc (a b : QuizRow) : Bool :=
  decide (b.quiz.name < a.quiz.name)

/-- The `ordering` request parameter (teachers.py lines 65-67): applied only
when it is exactly `name` or `-name`, silently ignored otherwise. -/
def applyOrderingKey (o : Option String) (rows : List QuizRow) :
    List QuizRow :=
  match o with
  | none => rows
  | some s =>
    if s == "name" then sortRowsBy byNameAsc rows
    else if s == "-name" then sortRowsBy byNameDesc rows
    else rows

/-- `QuizListView.get_queryset` (teachers.py lines 50-68): the acting
teacher's quizzes, annotated, then optionally filtered by name and subject
and optionally re-ordered. -/
def quizListQuerySet (db : DB) (user : Nat) (q t o : Option String) :
    List QuizRow :=
  applyOrderingKey o (applyTypeFilter t (applyFindFilter q
    ((ownedQuizzes db user).map (annotateQuiz db))))

theorem mem_of_mem_insertSortedBy {lt : QuizRow → QuizRow → Bool}
    {a r : QuizRow} {l : List QuizRow} (h : a ∈ insertSortedBy lt r l) :
    a = r ∨ a ∈ l := by
  induction l with
  | nil => simpa [insertSortedBy] using h
  | cons x xs ih =>
    unfold insertSortedBy at h
    by_cases hc : lt r x = true
    · rw [if_pos hc] at h
      rcases List.mem_cons.mp h with h1 | h2
      · exact Or.inl h1
      · exact Or.inr h2
    · rw [if_neg hc] at h
      rcases List.mem_cons.mp h with h1 | h2
      · exact Or.inr (List.mem_cons.mpr (Or.inl h1))
      · rcases ih h2 with h3 | h4
        · exact Or.inl h3
        · exact Or.inr (List.mem_cons.mpr (Or.inr h4))

theorem mem_of_mem_sortRowsBy_aux (lt : QuizRow → QuizRow → Bool)
    (l : List QuizRow) : ∀ acc a,
    a ∈ l.foldl (fun acc r => insertSortedBy lt r acc) acc →
    a ∈ acc ∨ a ∈ l := by
  induction l with
  | nil => intro acc a h; exact Or.inl h
  | cons r rest ih =>
    intro acc a h
    rcases ih (insertSortedBy lt r acc) a h with h1 | h2
    · rcases mem_of_mem_insertSortedBy h1 with h3 | h4
      · exact Or.inr (List.mem_cons.mpr (Or.inl h3))
      · exact Or.inl h4
    · exact Or.inr (List.mem_cons.mpr (Or.inr h2))

theorem mem_of_mem_sortRowsBy {lt : QuizRow → QuizRow → Bool} {a : QuizRow}
    {l : List QuizRow} (h : a ∈ sortRowsBy lt l) : a ∈ l := by
  rcases mem_of_mem_sortRowsBy_aux lt l [] a h with h1 | h2
  · cases h1
  · exact h2

theorem mem_of_mem_applyOrderingKey {o : Option String} {a : QuizRow}
    {l : List QuizRow} (h : a ∈ applyOrderingKey o l) : a ∈ l := by
  cases o with
  | none => exact h
  | some s =>
    simp only [applyOrderingKey] at h
    by_cases h1 : (s == "name") = true
    · rw [if_pos h1] at h
      exact mem_of_mem_sortRowsBy h
    · rw [if_neg h1] at h
      by_cases h2 : (s == "-name") = true
      · rw [if_pos h2] at h
        exact mem_of_mem_sortRowsBy h
      · rw [if_neg h2] at h
        exact h

theorem mem_of_mem_applyTypeFilter {t : Option String} {a : QuizRow}
    {l : List QuizRow} (h : a ∈ applyTypeFilter t l) : a ∈ l := by
  cases t with
  | none => exact h
  | some s =>
    simp only [applyTypeFilter] at h
    by_cases h1 : isAllDigits s = true
    · rw [if_pos h1] at h
      exact (List.mem_filter.mp h).1
    · rw [if_neg h1] at h
      exact h

theorem mem_of_mem_applyFindFilter {q : Option String} {a : QuizRow}
    {l : List QuizRow} (h : a ∈ applyFindFilter q l) : a ∈ l := by
  cases q with
  | none => exact h
  | some s => exact (List.mem_filter.mp h).1

/-- **C5.** For every teacher and every combination of the optional query
parameters, the quiz listing returns only quizzes owned by that teacher,
each annotated with its question count and its attempt count; a non-digit
subject filter and an ordering key other than `name`/`-name` are silently
ignored (same result as leaving the parameter out), never an error. -/
theorem quiz_list_owner_scoped_annotated_permissive (db : DB) (u : Nat)
    (q t o : Option String) :
    ((quizListQuerySet db u q t o).all (fun r =>
        r.quiz.owner == u &&
        r.questions_count ==
          (db.questions.filter (fun qn => qn.quiz == r.quiz.id)).length &&
        r.taken_count ==
          (db.takenQuizzes.filter (fun tq => tq.quiz == r.quiz.id)).length))
      = true ∧
    (∀ s, t = some s → isAllDigits s = false →
      quizListQuerySet db u q t o = quizListQuerySet db u q none o) ∧
    (∀ s, o = some s → s ≠ "name" → s ≠ "-name" →
      quizListQuerySet db u q t o = quizListQuerySet db u q t none) := by
  refine ⟨?_, ?_, ?_⟩
  · apply List.all_eq_true.mpr
    intro r hr
    have hbase : r ∈ (ownedQuizzes db u).map (annotateQuiz db) :=
      mem_of_mem_applyFindFilter (mem_of_mem_applyTypeFilter
        (mem_of_mem_applyOrderingKey hr))
    rcases List.mem_map.mp hbase with ⟨z, hz, rfl⟩
    have hown : z.owner = u := by
      simpa using (List.mem_filter.mp hz).2
    simp [annotateQuiz, hown]
  · intro s hs hdig
    subst hs
    simp [quizListQuerySet, applyTypeFilter, hdig]
  · intro s hs h1 h2
    subst hs
    have hb1 : (s == "name") = false := beq_eq_false_iff_ne.mpr h1
    have hb2 : (s == "-name") = false := beq_eq_false_iff_ne.mpr h2
    simp [quizListQuerySet, applyOrderingKey, hb1, hb2]

/-- Store with two teachers' quizzes, used by the listing witness. -/
def exDb5 : DB :=
  { quizzes := [{ id := 1, name := "Algebra", owner := 10, subject := some 5 },
                { id := 2, name := "Geometry", owner := 11, subject := some 5 }],
    questions := [{ id := 3, quiz := 1, text := "2+2=?" }],
    answers := [],
    students := [],
    takenQuizzes := [{ id := 4, student := 7, quiz := 1, score := 80,
                       date := { year := 2024, month := 1, day := 1,
                                 hour := 9, minute := 30 } }],
    studentAnswers := [],
    nextId := 100 }

theorem quiz_list_owner_scoped_annotated_permissive_witness :
    ((quizListQuerySet exDb5 10 (some "alg") (some "5x") (some "date")).all
      (fun r =>
        r.quiz.owner == 10 &&
        r.questions_count ==
          (exDb5.questions.filter (fun qn => qn.quiz == r.quiz.id)).length &&
        r.taken_count ==
          (exDb5.takenQuizzes.filter
            (fun tq => tq.quiz == r.quiz.id)).length)) = true ∧
    quizListQuerySet exDb5 10 (some "alg") (some "5x") (some "date") =
      quizListQuerySet exDb5 10 (some "alg") none (some "date") ∧
    quizListQuerySet exDb5 10 (some "alg") (some "5x") (some "date") =
      quizListQuerySet exDb5 10 (some "alg") (some "5x") none := by
  have h := quiz_list_owner_scoped_annotated_permissive exDb5 10
    (some "alg") (some "5x") (some "date")
  exact ⟨h.1, h.2.1 "5x" rfl (by decide), h.2.2 "date" rfl (by decide)
    (by decide)⟩

/-- A calendar date, the result of `TruncDate('date')`. -/
structure Date where
  year : Nat
  month : Nat
  day : Nat
deriving DecidableEq, Repr

/-- `TruncDate`: drop the time-of-day part of the timestamp. -/
def truncDate (d : Datetime) : Date :=
  { year := d.year, month := d.month, day := d.day }

/-- `TakenQuiz.objects.select_related('quiz').filter(quiz__owner=user)`:
all attempt rows whose quiz is owned by the teacher — note: no date-range
filter. -/
def analyticsRows (db : DB) (user : Nat) : List TakenQuiz :=
  db.takenQuizzes.filter (fun tq =>
    (db.quizzes.find? (fun z => z.id == tq.quiz)).any
      (fun z => z.owner == user))

/-- Admissibility of a grouping-key sequence `ds` for the grouped queryset
of `get_analytics_by_count_taken_quizzes` (teachers.py lines 280-283).  The
view clears any ordering with `.order_by()` and the resulting SQL is a
`GROUP BY date_only` with no `ORDER BY`, so the code determines WHICH keys
the backend emits — each distinct truncated date of the teacher's attempt
rows, exactly once — but NOT the order it emits them in.  `ds` is
admissible when it is duplicate-free, every element is the truncated date
of some row, and every row's truncated date occurs in it. -/
def isGroupKeySeq (db : DB) (user : Nat) (ds : List Date) : Bool :=
  decide ds.Nodup &&
  ds.all (fun d => (analyticsRows db user).any
    (fun tq => truncDate tq.date == d)) &&
  (analyticsRows db user).all (fun tq =>
    ds.any (fun d => d == truncDate tq.date))

/-- The grouped queryset as emitted with backend-chosen key order `ds`:
one entry per key, carrying `Count('id')` of the rows on that date. -/
def analyticsGroupsOn (db : DB) (user : Nat) (ds : List Date) :
    List (Date × Nat) :=
  ds.map (fun d => (d, ((analyticsRows db user).filter
    (fun tq => truncDate tq.date == d)).length))

/-- Zero-pad a number to two digits, as `%m` / `%d` do. -/
def pad2 (n : Nat) : String :=
  if n < 10 then "0" ++ toString n else toString n

/-- Zero-pad a year to four digits, as `%Y` does. -/
def pad4 (n : Nat) : String :=
  if n < 10 then "000" ++ toString n
  else if n < 100 then "00" ++ toString n
  else if n < 1000 then "0" ++ toString n
  else toString n

/-- `strftime("%m/%d/%Y")`. -/
def formatDateMDY (d : Date) : String :=
  pad2 d.month ++ "/" ++ pad2 d.day ++ "/" ++ pad4 d.year

/-- `get_analytics_by_count_taken_quizzes` (teachers.py lines 274-289): walk
the grouped queryset in the order the backend emitted it, appending each
entry's formatted date to `labels` and its count to `data`. -/
def getAnalyticsByCountTakenQuizzes (db : DB) (user : Nat)
    (ds : List Date) : List String × List Nat :=
  (analyticsGroupsOn db user ds).foldl
    (fun acc e => (acc.1 ++ [formatDateMDY e.1], acc.2 ++ [e.2])) ([], [])

theorem analytics_foldl_pair (l : List (Date × Nat)) : ∀ acc,
    l.foldl (fun acc e => (acc.1 ++ [formatDateMDY e.1], acc.2 ++ [e.2]))
      acc =
    (acc.1 ++ l.map (fun e => formatDateMDY e.1), acc.2 ++ l.map Prod.snd) := by
  induction l with
  | nil => intro acc; simp
  | cons e rest ih =>
    intro acc
    rw [List.foldl_cons, ih]
    simp

/-- Store matching the spec's analytics scenario: attempts on 2024-01-01
(×2) and 2024-01-03 (×1) on the teacher's quiz, plus an attempt on a quiz
of another teacher. -/
def exDb4 : DB :=
  { quizzes := [{ id := 1, name := "Algebra", owner := 10, subject := some 5 },
                { id := 2, name := "Geometry", owner := 11, subject := none }],
    questions := [],
    answers := [],
    students := [{ id := 7 }],
    takenQuizzes :=
      [{ id := 20, student := 7, quiz := 1, score := 80,
         date := { year := 2024, month := 1, day := 1, hour := 9,
                   minute := 30 } },
       { id := 21, student := 7, quiz := 1, score := 60,
         date := { year := 2024, month := 1, day := 1, hour := 15,
                   minute := 0 } },
       { id := 22, student := 7, quiz := 1, score := 90,
         date := { year := 2024, month := 1, day := 3, hour := 11,
                   minute := 5 } },
       { id := 23, student := 7, quiz := 2, score := 50,
         date := { year := 2024, month := 1, day := 2, hour := 12,
                   minute := 0 } }],
    studentAnswers := [],
    nextId := 100 }

/-- `exDb4`'s two attempt dates in ascending order. -/
def dsAsc : List Date :=
  [{ year := 2024, month := 1, day := 1 },
   { year := 2024, month := 1, day := 3 }]

/-- `exDb4`'s two attempt dates in descending order. -/
def dsDesc : List Date :=
  [{ year := 2024, month := 1, day := 3 },
   { year := 2024, month := 1, day := 1 }]

/-- **C4**, counterexample to the ordering part.  The grouped query carries
no `ORDER BY` (the view clears ordering with `.order_by()`), so a backend
emitting the groups in descending date order is admissible — and then the
labels come out `["01/03/2024", "01/01/2024"]`, not ascending.  Ascending
date order is therefore not a property the code guarantees. -/
theorem analytics_descending_backend_order :
    isGroupKeySeq exDb4 10 dsDesc = true ∧
    getAnalyticsByCountTakenQuizzes exDb4 10 dsDesc =
      (["01/03/2024", "01/01/2024"], [1, 2]) := by
  decide

/-- **C4** (amended: the code does not constrain the order of the grouped
rows, so the ascending-order part is dropped).  For every admissible
backend key order: the analytics view groups all `TakenQuiz` rows of
quizzes owned by the teacher by calendar date (timestamp truncated, no
date-range filter), counts attempts per date, and returns two parallel
sequences — `MM/DD/YYYY` labels and the matching counts, in the backend's
emission order — with one entry per distinct attempt date, a date appearing
exactly when at least one attempt landed on it (zero-attempt days are
absent, not zero-filled). -/
theorem analytics_counts_by_date (db : DB) (u : Nat) (ds : List Date)
    (hds : isGroupKeySeq db u ds = true) :
    (getAnalyticsByCountTakenQuizzes db u ds).1 = ds.map formatDateMDY ∧
    (getAnalyticsByCountTakenQuizzes db u ds).2 =
      ds.map (fun d => ((analyticsRows db u).filter
        (fun tq => truncDate tq.date == d)).length) ∧
    (getAnalyticsByCountTakenQuizzes db u ds).1.length =
      (getAnalyticsByCountTakenQuizzes db u ds).2.length ∧
    ds.Nodup ∧
    (∀ d, d ∈ ds ↔ ∃ tq ∈ analyticsRows db u, truncDate tq.date = d) := by
  have hfold := analytics_foldl_pair (analyticsGroupsOn db u ds) ([], [])
  have h1 : (getAnalyticsByCountTakenQuizzes db u ds).1 =
      (analyticsGroupsOn db u ds).map (fun e => formatDateMDY e.1) := by
    unfold getAnalyticsByCountTakenQuizzes
    rw [hfold]
    simp
  have h2 : (getAnalyticsByCountTakenQuizzes db u ds).2 =
      (analyticsGroupsOn db u ds).map Prod.snd := by
    unfold getAnalyticsByCountTakenQuizzes
    rw [hfold]
    simp
  simp only [isGroupKeySeq, Bool.and_eq_true] at hds
  obtain ⟨⟨hnd, hsub⟩, hsup⟩ := hds
  refine ⟨?_, ?_, ?_, of_decide_eq_true hnd, ?_⟩
  · rw [h1]
    unfold analyticsGroupsOn
    rw [List.map_map]
    rfl
  · rw [h2]
    unfold analyticsGroupsOn
    rw [List.map_map]
    rfl
  · rw [h1, h2, List.length_map, List.length_map]
  · intro d
    constructor
    · intro hd
      rcases List.any_eq_true.mp (List.all_eq_true.mp hsub d hd) with
        ⟨tq, htq, heq⟩
      exact ⟨tq, htq, beq_iff_eq.mp heq⟩
    · rintro ⟨tq, htq, rfl⟩
      rcases List.any_eq_true.mp (List.all_eq_true.mp hsup tq htq) with
        ⟨d2, hd2, heq⟩
      rw [← beq_iff_eq.mp heq]
      exact hd2

theorem analytics_counts_by_date_witness :
    isGroupKeySeq exDb4 10 dsAsc = true ∧
    (getAnalyticsByCountTakenQuizzes exDb4 10 dsAsc).1 =
      dsAsc.map formatDateMDY ∧
    (getAnalyticsByCountTakenQuizzes exDb4 10 dsAsc).1.length =
      (getAnalyticsByCountTakenQuizzes exDb4 10 dsAsc).2.length := by
  have h := analytics_counts_by_date exDb4 10 dsAsc (by decide)
  exact ⟨by decide, h.1, h.2.2.1⟩

theorem analytics_scenario_check :
    getAnalyticsByCountTakenQuizzes exDb4 10 dsAsc =
      (["01/01/2024", "01/03/2024"], [2, 1]) := by
  decide

/-- The questions of a quiz, in catalog order (`quiz.questions.all()`). -/
def questionsOfQuiz (db : DB) (quizPk : Nat) : List Question :=
  db.questions.filter (fun qn => qn.quiz == quizPk)

/-- One insertion into a Python dict: overwrite in place when the key is
already present, append otherwise. -/
def dictInsert (k : String) (v : List Answer)
    (l : List (String × List Answer)) : List (String × List Answer) :=
  if l.any (fun p => p.1 == k) then
    l.map (fun p => if p.1 == k then (k, v) else p)
  else l ++ [(k, v)]

/-- The dict comprehension `{question.text: question.answers.all() for
question in questions}` of `view_students_answers` (teachers.py line 205). -/
def buildAnswersDict (db : DB) (questions : List Question) :
    List (String × List Answer) :=
  questions.foldl (fun acc qn => dictInsert qn.text (answersOf db qn.id) acc) []

/-- Dict lookup by key. -/
def lookupDict (l : List (String × List Answer)) (k : String) :
    Option (List Answer) :=
  (l.find? (fun p => p.1 == k)).map Prod.snd

/-- `answer.student_answer.filter(student=student).exists()`. -/
def hasStudentAnswer (db : DB) (studentPk : Nat) (a : Answer) : Bool :=
  db.studentAnswers.any (fun sa => sa.student == studentPk && sa.answer == a.id)

/-- The nested loop of `view_students_answers` (teachers.py lines 206-211):
walk the answers question by question, appending those the student selected. -/
def studentsAnswersList (db : DB) (studentPk : Nat)
    (questions : List Question) : List Answer :=
  (questions.map (fun qn => answersOf db qn.id)).foldl
    (fun acc qAnswers => acc ++ qAnswers.filter (hasStudentAnswer db studentPk))
    []

/-- `view_students_answers` (teachers.py lines 199-218): quiz loaded
owner-scoped, student loaded independently (404 on either), then the
question-text-to-answers dict and the student's selected-answers list. -/
def viewStudentsAnswers (db : DB) (user quizPk studentPk : Nat) :
    Except Err (List (String × List Answer) × List Answer) :=
  match findQuiz db user quizPk with
  | none => .error .notFound
  | some _ =>
    match db.students.find? (fun st => st.id == studentPk) with
    | none => .error .notFound
    | some _ =>
      .ok (buildAnswersDict db (questionsOfQuiz db quizPk),
           studentsAnswersList db studentPk (questionsOfQuiz db quizPk))

theorem foldl_append_filter (p : Answer → Bool) (ls : List (List Answer)) :
    ∀ acc, ls.foldl (fun acc l => acc ++ l.filter p) acc =
      acc ++ ls.flatten.filter p := by
  induction ls with
  | nil => intro acc; simp
  | cons l rest ih =>
    intro acc
    rw [List.foldl_cons, ih, List.flatten_cons, List.filter_append,
      List.append_assoc]

theorem studentsAnswersList_eq_filter_flatten (db : DB) (spk : Nat)
    (qs : List Question) :
    studentsAnswersList db spk qs =
      ((qs.map (fun qn => answersOf db qn.id)).flatten).filter
        (hasStudentAnswer db spk) := by
  unfold studentsAnswersList
  rw [foldl_append_filter]
  simp

theorem lookupDict_dictInsert_self (k : String) (v : List Answer)
    (l : List (String × List Answer)) :
    lookupDict (dictInsert k v l) k = some v := by
  unfold dictInsert
  by_cases hany : l.any (fun p => p.1 == k) = true
  · rw [if_pos hany]
    induction l with
    | nil => simp at hany
    | cons p rest ih =>
      by_cases hp : (p.1 == k) = true
      · have : (if (p.1 == k) = true then (k, v) else p) = (k, v) :=
          if_pos hp
        simp [lookupDict, List.find?, hp]
      · have hrest : rest.any (fun p => p.1 == k) = true := by
          rcases List.any_eq_true.mp hany with ⟨x, hx, hxk⟩
          rcases List.mem_cons.mp hx with rfl | hx2
          · exact absurd hxk hp
          · exact List.any_eq_true.mpr ⟨x, hx2, hxk⟩
        have := ih hrest
        simpa [lookupDict, List.find?, hp] using this
  · rw [if_neg hany]
    have hnone : l.find? (fun p => p.1 == k) = none := by
      apply List.find?_eq_none.mpr
      intro x hx
      have := List.any_eq_false.mp (Bool.eq_false_iff.mpr hany) x hx
      simpa using this
    unfold lookupDict
    rw [List.find?_append, hnone]
    simp [List.find?]

theorem lookupDict_dictInsert_ne (k k' : String) (v : List Answer)
    (l : List (String × List Answer)) (h : k' ≠ k) :
    lookupDict (dictInsert k v l) k' = lookupDict l k' := by
  unfold dictInsert
  by_cases hany : l.any (fun p => p.1 == k) = true
  · rw [if_pos hany]
    clear hany
    induction l with
    | nil => rfl
    | cons p rest ih =>
      by_cases hp : (p.1 == k) = true
      · have hpk : p.1 = k := beq_iff_eq.mp hp
        have hne1 : ((k, v).1 == k') = false := by
          simp [beq_eq_false_iff_ne]
          exact fun hc => h hc.symm
        have hne2 : (p.1 == k') = false := by
          rw [hpk]
          simp [beq_eq_false_iff_ne]
          exact fun hc => h hc.symm
        simpa [lookupDict, List.find?, hp, hne1, hne2] using ih
      · by_cases hp' : (p.1 == k') = true
        · simp [lookupDict, List.find?, hp, hp']
        · simpa [lookupDict, List.find?, hp, hp'] using ih
  · rw [if_neg hany]
    unfold lookupDict
    rw [List.find?_append]
    have hlast : [(k, v)].find? (fun p => p.1 == k') = none := by
      have hkk : (k == k') = false := by
        rw [beq_eq_false_iff_ne]
        exact fun hc => h hc.symm
      simp [List.find?, hkk]
    rw [hlast]
    cases hfind : l.find? (fun p => p.1 == k') <;> simp

theorem dictKeys_dictInsert (k : String) (v : List Answer)
    (l : List (String × List Answer)) :
    (dictInsert k v l).map Prod.fst =
      if l.any (fun p => p.1 == k) then l.map Prod.fst
      else l.map Prod.fst ++ [k] := by
  unfold dictInsert
  by_cases hany : l.any (fun p => p.1 == k) = true
  · rw [if_pos hany, if_pos hany, List.map_map]
    apply List.map_congr_left
    intro p _
    by_cases hp : (p.1 == k) = true
    · simp [hp, (beq_iff_eq.mp hp).symm]
    · have hne : p.1 ≠ k := by simpa using hp
      simp [hp, hne]
  · rw [if_neg hany, if_neg hany, List.map_append]
    rfl

theorem nodup_keys_dictInsert (k : String) (v : List Answer)
    (l : List (String × List Answer)) (h : (l.map Prod.fst).Nodup) :
    ((dictInsert k v l).map Prod.fst).Nodup := by
  rw [dictKeys_dictInsert]
  by_cases hany : l.any (fun p => p.1 == k) = true
  · rw [if_pos hany]; exact h
  · rw [if_neg hany]
    rw [List.nodup_append]
    refine ⟨h, List.nodup_singleton k, ?_⟩
    intro x hx hk
    rcases List.mem_map.mp hx with ⟨p, hp, rfl⟩
    have hxk : p.1 = k := by simpa using hk
    have := List.any_eq_false.mp (Bool.eq_false_iff.mpr hany) p hp
    simp [hxk] at this

theorem nodup_keys_buildAnswersDict (db : DB) (qs : List Question) :
    ((buildAnswersDict db qs).map Prod.fst).Nodup := by
  suffices h : ∀ acc, (acc.map Prod.fst).Nodup →
      ((qs.foldl (fun acc qn =>
        dictInsert qn.text (answersOf db qn.id) acc) acc).map
        Prod.fst).Nodup by
    exact h [] List.nodup_nil
  induction qs with
  | nil => intro acc hacc; exact hacc
  | cons qn rest ih =>
    intro acc hacc
    exact ih _ (nodup_keys_dictInsert qn.text (answersOf db qn.id) acc hacc)

theorem lookup_buildAnswersDict_aux (db : DB) (qs : List Question) :
    ∀ acc k,
    lookupDict (qs.foldl (fun acc qn =>
      dictInsert qn.text (answersOf db qn.id) acc) acc) k =
    match qs.reverse.find? (fun qn => qn.text == k) with
    | some qn => some (answersOf db qn.id)
    | none => lookupDict acc k := by
  induction qs with
  | nil => intro acc k; rfl
  | cons q rest ih =>
    intro acc k
    rw [List.foldl_cons, ih, List.reverse_cons, List.find?_append]
    cases hrest : rest.reverse.find? (fun qn => qn.text == k) with
    | some qn => rfl
    | none =>
      by_cases hq : (q.text == k) = true
      · have : [q].find? (fun qn => qn.text == k) = some q := by
          simp [List.find?, hq]
        rw [this]
        show lookupDict (dictInsert q.text (answersOf db q.id) acc) k = _
        rw [← beq_iff_eq.mp hq]
        exact lookupDict_dictInsert_self q.text (answersOf db q.id) acc
      · have : [q].find? (fun qn => qn.text == k) = none := by
          simp [List.find?, hq]
        rw [this]
        show lookupDict (dictInsert q.text (answersOf db q.id) acc) k = _
        exact lookupDict_dictInsert_ne q.text k (answersOf db q.id) acc
          (fun hc => hq (beq_iff_eq.mpr (hc.symm ▸ rfl)))

/-- **C9.** The question-to-answers mapping of `view_students_answers` is a
Python dict keyed by question text: its keys are duplicate-free (one entry
per distinct text, not per question), and looking up a text returns the
answer set of the LAST question of the quiz bearing that text — two
same-text questions collapse into one entry holding the later one's
answers. -/
theorem answers_mapping_keyed_by_text (db : DB) (qs : List Question) :
    ((buildAnswersDict db qs).map Prod.fst).Nodup ∧
    ∀ k, lookupDict (buildAnswersDict db qs) k =
      (qs.reverse.find? (fun qn => qn.text == k)).map
        (fun qn => answersOf db qn.id) := by
  refine ⟨nodup_keys_buildAnswersDict db qs, ?_⟩
  intro k
  unfold buildAnswersDict
  rw [lookup_buildAnswersDict_aux]
  cases hfind : qs.reverse.find? (fun qn => qn.text == k) with
  | some qn => rfl
  | none => rfl

/-- Store with two same-text questions under one quiz. -/
def exDb9 : DB :=
  { quizzes := [{ id := 1, name := "Algebra", owner := 10, subject := none }],
    questions := [{ id := 5, quiz := 1, text := "2+2=?" },
                  { id := 6, quiz := 1, text := "2+2=?" }],
    answers := [{ id := 7, question := 5, text := "4", is_correct := true },
                { id := 8, question := 6, text := "four", is_correct := true }],
    students := [{ id := 7 }],
    takenQuizzes := [],
    studentAnswers := [],
    nextId := 100 }

theorem answers_mapping_keyed_by_text_witness :
    ((buildAnswersDict exDb9 (questionsOfQuiz exDb9 1)).map Prod.fst).Nodup ∧
    lookupDict (buildAnswersDict exDb9 (questionsOfQuiz exDb9 1)) "2+2=?" =
      some (answersOf exDb9 6) := by
  have h := answers_mapping_keyed_by_text exDb9 (questionsOfQuiz exDb9 1)
  refine ⟨h.1, ?_⟩
  rw [h.2 "2+2=?"]
  decide

theorem find?_text_eq_of_nodup_map {l : List Question} {a : Question}
    (hnodup : (l.map Question.text).Nodup) (hmem : a ∈ l) :
    l.find? (fun x => x.text == a.text) = some a := by
  induction l with
  | nil => cases hmem
  | cons x rest ih =>
    rcases List.mem_cons.mp hmem with rfl | hmem'
    · rw [List.find?_cons_of_pos]
      simp
    · have hcons : (x.text :: rest.map Question.text).Nodup := by
        simpa using hnodup
      have hx : x.text ∉ rest.map Question.text :=
        (List.nodup_cons.mp hcons).1
      have htl : (rest.map Question.text).Nodup :=
        (List.nodup_cons.mp hcons).2
      have hne : (x.text == a.text) = false := by
        rw [beq_eq_false_iff_ne]
        intro hc
        exact hx (hc ▸ List.mem_map.mpr ⟨a, hmem', rfl⟩)
      rw [List.find?_cons_of_neg]
      · exact ih htl hmem'
      · simp [hne]

theorem reverse_find?_text (qs : List Question) (qn : Question)
    (hnodup : (qs.map Question.text).Nodup) (hmem : qn ∈ qs) :
    qs.reverse.find? (fun q2 => q2.text == qn.text) = some qn := by
  apply find?_text_eq_of_nodup_map
  · rw [List.map_reverse]
    exact List.nodup_reverse.mpr hnodup
  · exact List.mem_reverse.mpr hmem

/-- **C6.** `view_students_answers` on a quiz owned by the requesting
teacher: a missing student is a 404 checked independently; with the student
present it returns the question-text-to-candidate-answers mapping together
with exactly those answers of the quiz the student selected (in quiz
order); a student with no selected-answer records gets an empty list, not
an error. -/
theorem view_students_answers_contract (db : DB) (u quizPk spk : Nat)
    (z : Quiz) (hq : findQuiz db u quizPk = some z) :
    (db.students.find? (fun st => st.id == spk) = none →
      viewStudentsAnswers db u quizPk spk = .error .notFound) ∧
    (∀ st, db.students.find? (fun st => st.id == spk) = some st →
      viewStudentsAnswers db u quizPk spk =
        .ok (buildAnswersDict db (questionsOfQuiz db quizPk),
          ((questionsOfQuiz db quizPk).map
            (fun qn => answersOf db qn.id)).flatten.filter
            (hasStudentAnswer db spk))) ∧
    (((questionsOfQuiz db quizPk).map Question.text).Nodup →
      ∀ qn ∈ questionsOfQuiz db quizPk,
        lookupDict (buildAnswersDict db (questionsOfQuiz db quizPk)) qn.text =
          some (answersOf db qn.id)) ∧
    (db.studentAnswers.all (fun sa => sa.student != spk) = true →
      studentsAnswersList db spk (questionsOfQuiz db quizPk) = []) := by
  refine ⟨?_, ?_, ?_, ?_⟩
  · intro hnone
    simp [viewStudentsAnswers, hq, hnone]
  · intro st hst
    simp [viewStudentsAnswers, hq, hst,
      studentsAnswersList_eq_filter_flatten]
  · intro hnodup qn hqn
    unfold buildAnswersDict
    rw [lookup_buildAnswersDict_aux, reverse_find?_text _ qn hnodup hqn]
  · intro hall
    rw [studentsAnswersList_eq_filter_flatten]
    apply List.filter_eq_nil_iff.mpr
    intro a _
    unfold hasStudentAnswer
    rw [Bool.not_eq_true, List.any_eq_false]
    intro sa hsa
    have hne : sa.student ≠ spk := by
      simpa using List.all_eq_true.mp hall sa hsa
    simp only [Bool.and_eq_true, beq_iff_eq]
    rintro ⟨h1, -⟩
    exact hne h1

theorem view_students_answers_contract_witness :
    viewStudentsAnswers exDb1 10 1 7 =
      .ok (buildAnswersDict exDb1 (questionsOfQuiz exDb1 1),
        ((questionsOfQuiz exDb1 1).map
          (fun qn => answersOf exDb1 qn.id)).flatten.filter
          (hasStudentAnswer exDb1 7)) ∧
    studentsAnswersList exDb1 7 (questionsOfQuiz exDb1 1) = [] := by
  have h := view_students_answers_contract exDb1 10 1 7
    { id := 1, name := "Algebra", owner := 10, subject := some 5 } (by decide)
  exact ⟨h.2.1 { id := 7 } (by decide), h.2.2.2 (by decide)⟩

/-- `exDb1` after student 7 selects the answer "4" (answer id 3). -/
def exDb6 : DB :=
  { exDb1 with studentAnswers := [{ id := 30, student := 7, answer := 3 }] }

theorem students_answers_scenario_check :
    studentsAnswersList exDb6 7 (questionsOfQuiz exDb6 1) =
      [{ id := 3, question := 2, text := "4", is_correct := true }] := by
  decide

/-- **C10.** In the selected-answers list each answer of the quiz occurs at
most once — inclusion is decided by EXISTENCE of at least one
`StudentAnswer` record linking the student to it, however many such records
there are (the list is a filter of the quiz's answer rows, each present
once). -/
theorem selected_answers_no_duplicates (db : DB) (spk : Nat)
    (qs : List Question)
    (h : (((qs.map (fun qn => answersOf db qn.id)).flatten).map
      (fun a => a.id)).Nodup) :
    ((studentsAnswersList db spk qs).map (fun a => a.id)).Nodup ∧
    ∀ a, a ∈ studentsAnswersList db spk qs ↔
      (a ∈ (qs.map (fun qn => answersOf db qn.id)).flatten ∧
        hasStudentAnswer db spk a = true) := by
  rw [studentsAnswersList_eq_filter_flatten]
  constructor
  · exact List.Nodup.sublist
      (List.Sublist.map _ (List.filter_sublist _)) h
  · intro a
    rw [List.mem_filter]

/-- `exDb1` with TWO selected-answer records for the same student and the
same answer (a repeated attempt). -/
def exDb10 : DB :=
  { exDb1 with studentAnswers := [{ id := 30, student := 7, answer := 3 },
                                  { id := 31, student := 7, answer := 3 }] }

theorem selected_answers_no_duplicates_witness :
    ((studentsAnswersList exDb10 7 (questionsOfQuiz exDb10 1)).map
      (fun a => a.id)).Nodup := by
  exact (selected_answers_no_duplicates exDb10 7 (questionsOfQuiz exDb10 1)
    (by decide)).1

theorem selected_answers_duplicate_records_check :
    studentsAnswersList exDb10 7 (questionsOfQuiz exDb10 1) =
      [{ id := 3, question := 2, text := "4", is_correct := true }] := by
  decide

/-- One emitted document line: its text and the font (size, boldness) active
when the `pdf.cell(..., ln=1)` call ran. -/
structure PdfLine where
  text : String
  size : Nat
  bold : Bool
deriving DecidableEq, Repr

/-- The mutable FPDF handle: current font and the lines emitted so far. -/
structure PdfState where
  fontBold : Bool
  fontSize : Nat
  lines : List PdfLine
deriving DecidableEq, Repr

/-- `pdf.set_font('Times', style, size)`. -/
def setFont (st : PdfState) (bold : Bool) (size : Nat) : PdfState :=
  { st with fontBold := bold, fontSize := size }

/-- `pdf.cell(0, 10, txt=..., ln=1)`: emit one line in the current font. -/
def cell (st : PdfState) (txt : String) : PdfState :=
  { st with lines := st.lines ++
      [{ text := txt, size := st.fontSize, bold := st.fontBold }] }

/-- The body of the `for question in questions` loop of `get_quiz_in_pdf`
(teachers.py lines 233-243), threading the FPDF state and the running
question number. -/
def pdfQuestionStep (db : DB) (p : PdfState × Nat) (qn : Question) :
    PdfState × Nat :=
  let st1 := cell p.1 ""
  let st2 := setFont st1 true 14
  let st3 := cell st2 (toString p.2 ++ ". " ++ qn.text)
  let st4 := setFont st3 false 14
  let st5 := cell st4 ""
  let st6 := ((answersOf db qn.id).foldl
    (fun q a => (cell q.1 (toString q.2 ++ ". " ++ a.text), q.2 + 1))
    (st5, 1)).1
  (st6, p.2 + 1)

/-- `get_quiz_in_pdf` (teachers.py lines 221-246): quiz loaded owner-scoped
(404 otherwise), then title in bold 16, then the per-question loop.  The
result is the emitted line sequence (the byte-level PDF encoding and the
file side effect are outside the embedding). -/
def getQuizInPdf (db : DB) (user quizPk : Nat) : Except Err (List PdfLine) :=
  match findQuiz db user quizPk with
  | none => .error .notFound
  | some z =>
    let st0 : PdfState := { fontBold := false, fontSize := 0, lines := [] }
    let st1 := setFont st0 true 16
    let st2 := cell st1 z.name
    let st3 := setFont st2 false 14
    let final := (questionsOfQuiz db quizPk).foldl (pdfQuestionStep db) (st3, 1)
    .ok final.1.lines

/-- A numbered list of lines, numbering starting at `k`. -/
def numberedLines (size : Nat) (bold : Bool) : Nat → List Answer → List PdfLine
  | _, [] => []
  | k, a :: rest =>
    { text := toString k ++ ". " ++ a.text, size := size, bold := bold } ::
      numberedLines size bold (k + 1) rest

/-- The document body as the spec describes it: for each question, numbered
from `k` upward, a blank line, a bold size-14 numbered heading, a blank
line, then the question's answers as a size-14 regular list numbered from
1. -/
def questionSegments (db : DB) : Nat → List Question → List PdfLine
  | _, [] => []
  | k, qn :: rest =>
    ([{ text := "", size := 14, bold := false },
      { text := toString k ++ ". " ++ qn.text, size := 14, bold := true },
      { text := "", size := 14, bold := false }] ++
      numberedLines 14 false 1 (answersOf db qn.id)) ++
    questionSegments db (k + 1) rest

theorem pdf_answers_foldl (answers : List Answer) : ∀ (st : PdfState) (k : Nat),
    answers.foldl
      (fun q a => (cell q.1 (toString q.2 ++ ". " ++ a.text), q.2 + 1))
      (st, k) =
    ({ st with lines := st.lines ++
        numberedLines st.fontSize st.fontBold k answers },
      k + answers.length) := by
  induction answers with
  | nil => intro st k; simp [numberedLines]
  | cons a rest ih =>
    intro st k
    rw [List.foldl_cons, ih]
    apply Prod.ext
    · show ({ cell st (toString k ++ ". " ++ a.text) with
        lines := (cell st (toString k ++ ". " ++ a.text)).lines ++ _ } :
          PdfState) = _
      simp [cell, numberedLines, List.append_assoc]
    · show k + 1 + rest.length = k + (a :: rest).length
      simp [List.length_cons]
      omega

theorem pdf_questions_foldl (db : DB) (qs : List Question) :
    ∀ (L : List PdfLine) (k : Nat),
    qs.foldl (pdfQuestionStep db)
      (({ fontBold := false, fontSize := 14, lines := L } : PdfState), k) =
    ({ fontBold := false, fontSize := 14,
       lines := L ++ questionSegments db k qs }, k + qs.length) := by
  induction qs with
  | nil => intro L k; simp [questionSegments]
  | cons qn rest ih =>
    intro L k
    rw [List.foldl_cons]
    have hstep : pdfQuestionStep db
        (({ fontBold := false, fontSize := 14, lines := L } : PdfState), k)
        qn =
        (({ fontBold := false, fontSize := 14,
            lines := L ++ ([{ text := "", size := 14, bold := false },
              { text := toString k ++ ". " ++ qn.text, size := 14,
                bold := true },
              { text := "", size := 14, bold := false }] ++
              numberedLines 14 false 1 (answersOf db qn.id)) } : PdfState),
          k + 1) := by
      simp only [pdfQuestionStep]
      rw [pdf_answers_foldl]
      simp [cell, setFont, List.append_assoc]
    rw [hstep, ih]
    apply Prod.ext
    · show ({ fontBold := false, fontSize := 14, lines := _ } : PdfState) = _
      rw [questionSegments]
      simp [List.append_assoc]
    · show k + 1 + rest.length = k + (qn :: rest).length
      simp [List.length_cons]
      omega

/-- **C7.** The exported document starts with the quiz name as a bold
size-16 title, then, per question in catalog order, a consecutively
numbered bold size-14 heading with the question text followed by that
question's answers as a size-14 regular list numbered from 1 again, with
blank lines around each heading separating the questions. -/
theorem get_quiz_in_pdf_structure (db : DB) (u quizPk : Nat) (z : Quiz)
    (hq : findQuiz db u quizPk = some z) :
    getQuizInPdf db u quizPk =
      .ok ({ text := z.name, size := 16, bold := true } ::
        questionSegments db 1 (questionsOfQuiz db quizPk)) := by
  unfold getQuizInPdf
  rw [hq]
  show Except.ok ((questionsOfQuiz db quizPk).foldl (pdfQuestionStep db)
    (({ fontBold := false, fontSize := 14,
        lines := [{ text := z.name, size := 16, bold := true }] } : PdfState),
      1)).1.lines = _
  rw [pdf_questions_foldl]
  rfl

theorem get_quiz_in_pdf_structure_witness :
    getQuizInPdf exDb1 10 1 =
      .ok ({ text := "Algebra", size := 16, bold := true } ::
        questionSegments exDb1 1 (questionsOfQuiz exDb1 1)) := by
  exact get_quiz_in_pdf_structure exDb1 10 1
    { id := 1, name := "Algebra", owner := 10, subject := some 5 } (by decide)

theorem get_quiz_in_pdf_lines_check :
    getQuizInPdf exDb1 10 1 =
      .ok [{ text := "Algebra", size := 16, bold := true },
           { text := "", size := 14, bold := false },
           { text := "1. 2+2=?", size := 14, bold := true },
           { text := "", size := 14, bold := false },
           { text := "1. 4", size := 14, bold := false },
           { text := "2. 5", size := 14, bold := false }] := by
  decide
